import Mathlib

/-!
Verification of the Planet Zero monthly simulator (`pz_model.py`) and its
trajectory-mode companions (`phase2_viability_grid.py`, `phase2_dashboard.py`).

Numbers are modelled as rationals (the Python code uses IEEE doubles; all the
properties checked here are about the exact arithmetic structure of the
recurrences, not about rounding).  The special value `inf` produced for the
buffer-coverage ratio when monthly costs are non-positive is modelled by an
explicit two-constructor coverage type.
-/

/-- Immutable configuration, mirroring the `PZParams` dataclass field by field
(defaults are reproduced in `defaultParams` below). -/
structure PZParams where
  r_annual : ℚ
  A0 : ℚ
  m0 : ℚ
  employees0 : ℤ
  cost_per_employee : ℚ
  other_fixed_costs : ℚ
  fs_pct_of_bpz : ℚ
  impact_pct_of_bpz_rem : ℚ
  internal_pct_of_bpz_rem : ℚ
  rd_pct_of_internal : ℚ
  wellbeing_pct_of_internal : ℚ
  legal_pct_of_internal : ℚ
  churn_rate : ℚ
  acq_churn_ratio : ℚ
  k_acq : ℚ
  km_margin : ℚ
  krd_margin : ℚ
  max_margin_growth : ℚ
  hire_cooldown_months : ℤ
  hire_trigger_buffer : ℚ
  use_dynamic_p : Bool
  p_override : ℚ
  p4_max : ℚ
  rev_growth : ℚ
deriving DecidableEq

/-- The dataclass defaults of `PZParams` in `pz_model.py`. -/
def defaultParams : PZParams :=
  { r_annual := 4/100
    A0 := 100
    m0 := 25
    employees0 := 2
    cost_per_employee := 1000
    other_fixed_costs := 0
    fs_pct_of_bpz := 30/100
    impact_pct_of_bpz_rem := 60/100
    internal_pct_of_bpz_rem := 40/100
    rd_pct_of_internal := 60/100
    wellbeing_pct_of_internal := 25/100
    legal_pct_of_internal := 15/100
    churn_rate := 3/100
    acq_churn_ratio := 1
    k_acq := 20/100
    km_margin := 10/1000
    krd_margin := 6/1000
    max_margin_growth := 3/100
    hire_cooldown_months := 3
    hire_trigger_buffer := 120/100
    use_dynamic_p := true
    p_override := -1
    p4_max := 70/100
    rev_growth := 0 }

/-- `r_monthly` from `pz_model.py`. -/
def r_monthly (r_annual : ℚ) : ℚ := r_annual / 12

/-- `fs_ratio_for_employees` from `pz_model.py`: survival-ratio maturity rule. -/
def fs_ratio_for_employees (employees : ℤ) : ℤ :=
  if employees ≤ 2 then 3
  else if employees ≤ 6 then 6
  else 12

/-- `clamp` from `pz_model.py`: `max(lo, min(hi, x))`. -/
def clamp (x lo hi : ℚ) : ℚ := max lo (min hi x)

/-- The buffer-coverage signal: a finite rational, or the `float("inf")` the
Python code produces when monthly costs are not positive. -/
inductive Cov where
  | fin : ℚ → Cov
  | infty : Cov
deriving DecidableEq

/-- `FS / costs if costs > 0 else float("inf")`, the coverage computation used
by all three simulator variants. -/
def covOf (FS costs : ℚ) : Cov :=
  if 0 < costs then .fin (FS / costs) else .infty

/-- Result record of `p_bounds_by_fs`. -/
structure PBounds where
  pmin : ℚ
  pmax : ℚ
  phase : ℕ
  lam : ℚ
deriving DecidableEq

/-- `p_bounds_by_fs` from `pz_model.py`: phase ranges plus within-phase
interpolation parameter, with the final `clamp(lam, 0, 1)`.  On the `inf`
coverage every comparison `inf < c` is false, so Python falls into the
Phase-4 branch with `lam = clamp(inf, 0, 1) = 1`. -/
def p_bounds_by_fs (fs_cov : Cov) (p4_max : ℚ) : PBounds :=
  match fs_cov with
  | .infty => { pmin := 40/100, pmax := p4_max, phase := 4, lam := 1 }
  | .fin c =>
    if c < 3 then
      { pmin := 5/100, pmax := 15/100, phase := 1, lam := clamp (c / 3) 0 1 }
    else if c < 6 then
      { pmin := 20/100, pmax := 35/100, phase := 2, lam := clamp ((c - 3) / 3) 0 1 }
    else if c < 12 then
      { pmin := 30/100, pmax := 50/100, phase := 3, lam := clamp ((c - 6) / 6) 0 1 }
    else
      { pmin := 40/100, pmax := p4_max, phase := 4, lam := clamp ((c - 12) / 12) 0 1 }

/-- `p_dynamic_from_fs` from `pz_model.py`. -/
def p_dynamic_from_fs (fs_cov : Cov) (p4_max : ℚ) : ℚ :=
  let b := p_bounds_by_fs fs_cov p4_max
  b.pmin + b.lam * (b.pmax - b.pmin)

/-- The simulator state threaded through the monthly loop of `simulate_pz`
(lines 160–179 of `pz_model.py`). -/
structure PZState where
  A : ℚ
  m : ℚ
  employees : ℤ
  BC : ℚ
  FS : ℚ
  impact_cum : ℚ
  months_u_pos : ℕ
  first_impact_month : Option ℕ
  u_sum : ℚ
  hires : ℕ
  last_hire_month : ℤ
  last_p_eff : Option ℚ
  last_phase : Option ℕ
deriving DecidableEq

/-- Initial state of `simulate_pz` (`last_p_eff`/`last_phase` start as NaN in
Python, modelled by `none`). -/
def initState (params : PZParams) (B0 FS0 : ℚ) : PZState :=
  { A := params.A0
    m := params.m0
    employees := params.employees0
    BC := B0
    FS := FS0
    impact_cum := 0
    months_u_pos := 0
    first_impact_month := none
    u_sum := 0
    hires := 0
    last_hire_month := -10000
    last_p_eff := none
    last_phase := none }

/-- `costs = employees * cost_per_employee + other_fixed_costs`. -/
def monthCosts (params : PZParams) (s : PZState) : ℚ :=
  (s.employees : ℚ) * params.cost_per_employee + params.other_fixed_costs

/-- `revenue = A * m` (the only revenue formula in `simulate_pz`). -/
def monthRevenue (s : PZState) : ℚ := s.A * s.m

/-- `interest = rm * (BC + FS)`. -/
def monthInterest (params : PZParams) (s : PZState) : ℚ :=
  r_monthly params.r_annual * (s.BC + s.FS)

/-- `U = revenue + interest - costs`. -/
def monthU (params : PZParams) (s : PZState) : ℚ :=
  monthRevenue s + monthInterest params s - monthCosts params s

/-- Pre-allocation coverage observed by governance. -/
def monthCov (params : PZParams) (s : PZState) : Cov :=
  covOf s.FS (monthCosts params s)

/-- The override > dynamic > fixed selection of lines 196–203 of
`pz_model.py`, including the final defensive clamp. -/
def p_eff_choice (params : PZParams) (p_to_bc : ℚ) (fs_cov : Cov) : ℚ :=
  clamp
    (if 0 ≤ params.p_override ∧ params.p_override ≤ 1 then params.p_override
     else if params.use_dynamic_p then p_dynamic_from_fs fs_cov params.p4_max
     else p_to_bc)
    0 1

/-- Effective investment share used in month whose start state is `s`. -/
def monthPEff (params : PZParams) (p_to_bc : ℚ) (s : PZState) : ℚ :=
  p_eff_choice params p_to_bc (monthCov params s)

/-- `FS_in = fs_pct_of_bpz * BPZ_in` for the month starting at `s`. -/
def monthFSIn (params : PZParams) (p_to_bc : ℚ) (s : PZState) : ℚ :=
  params.fs_pct_of_bpz * ((1 - monthPEff params p_to_bc s) * monthU params s)

/-- Post-allocation FS balance, the value the hiring rule inspects. -/
def monthPostFS (params : PZParams) (p_to_bc : ℚ) (s : PZState) : ℚ :=
  s.FS + monthFSIn params p_to_bc s

/-- The month-`t` hiring condition of lines 249–250 of `pz_model.py`
(cooldown elapsed, then post-allocation FS meets the trigger). -/
def hireCond (params : PZParams) (p_to_bc : ℚ) (t : ℕ) (s : PZState) : Prop :=
  params.hire_cooldown_months ≤ (t : ℤ) - s.last_hire_month ∧
    params.hire_trigger_buffer * ((fs_ratio_for_employees s.employees : ℚ) * monthCosts params s)
      ≤ monthPostFS params p_to_bc s

instance (params : PZParams) (p_to_bc : ℚ) (t : ℕ) (s : PZState) :
    Decidable (hireCond params p_to_bc t s) := by
  unfold hireCond; infer_instance

/-- One iteration of the month loop of `simulate_pz` (lines 181–254). -/
def stepPZ (params : PZParams) (p_to_bc : ℚ) (t : ℕ) (s : PZState) : PZState :=
  let costs := monthCosts params s
  let U := monthU params s
  if 0 < U then
    let p_eff := monthPEff params p_to_bc s
    let b := p_bounds_by_fs (monthCov params s) params.p4_max
    let BPZ_in := (1 - p_eff) * U
    let BPZ_rem := (1 - params.fs_pct_of_bpz) * BPZ_in
    let impact := params.impact_pct_of_bpz_rem * BPZ_rem
    let internal := params.internal_pct_of_bpz_rem * BPZ_rem
    let rd := params.rd_pct_of_internal * internal
    let intensity_den := costs + 1
    let churn := params.churn_rate * s.A
    let acquisitions := params.acq_churn_ratio * churn + params.k_acq * (impact / intensity_den)
    let g_m := min params.max_margin_growth
      (max 0 (params.km_margin * (impact / intensity_den) + params.krd_margin * (rd / intensity_den)))
    let hire := hireCond params p_to_bc t s
    { A := max 0 (s.A + acquisitions - churn)
      m := s.m * (1 + g_m)
      employees := if hire then s.employees + 1 else s.employees
      BC := s.BC + p_eff * U
      FS := monthPostFS params p_to_bc s
      impact_cum := s.impact_cum + impact
      months_u_pos := s.months_u_pos + 1
      first_impact_month :=
        if s.first_impact_month = none ∧ 0 < impact then some t else s.first_impact_month
      u_sum := s.u_sum + U
      hires := if hire then s.hires + 1 else s.hires
      last_hire_month := if hire then (t : ℤ) else s.last_hire_month
      last_p_eff := some p_eff
      last_phase := some b.phase }
  else
    { s with u_sum := s.u_sum + U }

/-- State of `simulate_pz` after the first `t` months. -/
def runPZ (params : PZParams) (p_to_bc B0 FS0 : ℚ) : ℕ → PZState
  | 0 => initState params B0 FS0
  | t + 1 => stepPZ params p_to_bc (t + 1) (runPZ params p_to_bc B0 FS0 t)

/-- The fixed-shape summary record returned by `simulate_pz`. -/
structure PZResult where
  months : ℕ
  p_to_bc_input : ℚ
  p_eff_last : Option ℚ
  phase_last : Option ℕ
  impact_cum_end : ℚ
  BC_end : ℚ
  FS_end : ℚ
  employees_end : ℤ
  hires_total : ℕ
  A_end : ℚ
  m_end : ℚ
  avg_U : ℚ
  pct_months_U_pos : ℚ
  first_impact_month : Option ℕ
  fs_ratio_final : ℤ
  fs_target_final : ℚ
  fs_coverage_months_final : Cov
  p_range_min_final : ℚ
  p_range_max_final : ℚ
  p_dyn_final : ℚ
  phase_final : ℕ
  lambda_in_phase_final : ℚ
deriving DecidableEq

/-- `simulate_pz` from `pz_model.py`: run the monthly loop and assemble the
summary dictionary. -/
def simulate_pz (months : ℕ) (p_to_bc : ℚ) (params : PZParams) (B0 FS0 : ℚ) : PZResult :=
  let s := runPZ params p_to_bc B0 FS0 months
  let final_costs := (s.employees : ℚ) * params.cost_per_employee + params.other_fixed_costs
  let fs_ratio_final := fs_ratio_for_employees s.employees
  let fs_cov_final := covOf s.FS final_costs
  let bf := p_bounds_by_fs fs_cov_final params.p4_max
  { months := months
    p_to_bc_input := p_to_bc
    p_eff_last := s.last_p_eff
    phase_last := s.last_phase
    impact_cum_end := s.impact_cum
    BC_end := s.BC
    FS_end := s.FS
    employees_end := s.employees
    hires_total := s.hires
    A_end := s.A
    m_end := s.m
    avg_U := if months = 0 then 0 else s.u_sum / (months : ℚ)
    pct_months_U_pos := if months = 0 then 0 else (s.months_u_pos : ℚ) / (months : ℚ)
    first_impact_month := s.first_impact_month
    fs_ratio_final := fs_ratio_final
    fs_target_final := (fs_ratio_final : ℚ) * final_costs
    fs_coverage_months_final := fs_cov_final
    p_range_min_final := bf.pmin
    p_range_max_final := bf.pmax
    p_dyn_final := p_dynamic_from_fs fs_cov_final params.p4_max
    phase_final := bf.phase
    lambda_in_phase_final := bf.lam }

/-!
Trajectory-mode simulator of `phase2_viability_grid.py` (`run_path_until`,
lines 21–116).  It re-implements the monthly loop of `simulate_pz` inline with
`BC = FS = 0` as starting balances, computes `p_eff` every month (with the
hard-coded `0.30` in the fixed branch), and records one row per month.
-/

/-- The mutable loop variables of the grid's `run_path_until`. -/
structure GridState where
  A : ℚ
  m : ℚ
  employees : ℤ
  BC : ℚ
  FS : ℚ
  hires : ℕ
  last_hire_month : ℤ
deriving DecidableEq

/-- Initial loop variables of the grid's `run_path_until` (balances hard-coded
to zero in the source). -/
def gridInit (params : PZParams) (A0 m0 : ℚ) : GridState :=
  { A := A0, m := m0, employees := params.employees0, BC := 0, FS := 0,
    hires := 0, last_hire_month := -10000 }

/-- One iteration of the month loop of the grid's `run_path_until`. -/
def gridStep (params : PZParams) (t : ℕ) (s : GridState) : GridState :=
  let costs := (s.employees : ℚ) * params.cost_per_employee + params.other_fixed_costs
  let U := s.A * s.m + r_monthly params.r_annual * (s.BC + s.FS) - costs
  let fs_cov := covOf s.FS costs
  let p_eff := clamp
    (if 0 ≤ params.p_override ∧ params.p_override ≤ 1 then params.p_override
     else if params.use_dynamic_p then p_dynamic_from_fs fs_cov params.p4_max
     else 30/100)
    0 1
  if 0 < U then
    let BPZ_in := (1 - p_eff) * U
    let FS' := s.FS + params.fs_pct_of_bpz * BPZ_in
    let BPZ_rem := (1 - params.fs_pct_of_bpz) * BPZ_in
    let impact := params.impact_pct_of_bpz_rem * BPZ_rem
    let internal := params.internal_pct_of_bpz_rem * BPZ_rem
    let rd := params.rd_pct_of_internal * internal
    let churn := params.churn_rate * s.A
    let acquisitions := params.acq_churn_ratio * churn + params.k_acq * (impact / (costs + 1))
    let g_m := min params.max_margin_growth
      (max 0 (params.km_margin * (impact / (costs + 1)) + params.krd_margin * (rd / (costs + 1))))
    let fs_target := (fs_ratio_for_employees s.employees : ℚ) * costs
    let hire := params.hire_cooldown_months ≤ (t : ℤ) - s.last_hire_month ∧
      params.hire_trigger_buffer * fs_target ≤ FS'
    { A := max 0 (s.A + acquisitions - churn)
      m := s.m * (1 + g_m)
      employees := if hire then s.employees + 1 else s.employees
      BC := s.BC + p_eff * U
      FS := FS'
      hires := if hire then s.hires + 1 else s.hires
      last_hire_month := if hire then (t : ℤ) else s.last_hire_month }
  else
    s

/-- Grid loop variables after the first `t` months. -/
def gridRun (params : PZParams) (A0 m0 : ℚ) : ℕ → GridState
  | 0 => gridInit params A0 m0
  | t + 1 => gridStep params (t + 1) (gridRun params A0 m0 t)

/-- One row of the trajectory DataFrame built by the grid's `run_path_until`
(post-update balances, pre-update diagnostics). -/
structure GridRow where
  t : ℕ
  A : ℚ
  m : ℚ
  employees : ℤ
  BC : ℚ
  FS : ℚ
  U : ℚ
  p_eff : ℚ
  impact : ℚ
  fs_cov_before : Cov
  fs_cov_after : Cov
deriving DecidableEq

/-- The row appended for month `t` when the loop variables at the start of the
month are `s` (the source appends after updating the state, so balance columns
show the post-update values while `U`, `p_eff`, `impact` and `fs_cov_before`
come from the pre-update state; `impact` stays `0.0` in a frozen month). -/
def gridRowAt (params : PZParams) (t : ℕ) (s : GridState) : GridRow :=
  let costs := (s.employees : ℚ) * params.cost_per_employee + params.other_fixed_costs
  let U := s.A * s.m + r_monthly params.r_annual * (s.BC + s.FS) - costs
  let fs_cov := covOf s.FS costs
  let p_eff := clamp
    (if 0 ≤ params.p_override ∧ params.p_override ≤ 1 then params.p_override
     else if params.use_dynamic_p then p_dynamic_from_fs fs_cov params.p4_max
     else 30/100)
    0 1
  let impact :=
    if 0 < U then
      params.impact_pct_of_bpz_rem * ((1 - params.fs_pct_of_bpz) * ((1 - p_eff) * U))
    else 0
  let s' := gridStep params t s
  let costs_after := (s'.employees : ℚ) * params.cost_per_employee + params.other_fixed_costs
  { t := t
    A := s'.A
    m := s'.m
    employees := s'.employees
    BC := s'.BC
    FS := s'.FS
    U := U
    p_eff := p_eff
    impact := impact
    fs_cov_before := fs_cov
    fs_cov_after := covOf s'.FS costs_after }

/-- The full trajectory DataFrame of the grid's `run_path_until`: one row per
month `t = 1, …, months`, in order. -/
def gridTraj (params : PZParams) (A0 m0 : ℚ) (months : ℕ) : List GridRow :=
  (List.range' 1 months).map (fun t => gridRowAt params t (gridRun params A0 m0 (t - 1)))

/-- The pandas mask-and-first-hit of `first_crossing_month`:
`FS_coverage ≥ threshold` with `inf` exceeding every threshold. -/
def covGeB (c : Cov) (threshold : ℚ) : Bool :=
  match c with
  | .infty => true
  | .fin q => threshold ≤ q

/-- `first_crossing_month` (grid and dashboard versions): the `t` column of
the first row whose post-allocation coverage meets the threshold, `none`
("NaN" / `None` in the sources) when no row does. -/
def first_crossing_month (traj : List GridRow) (threshold : ℚ) : Option ℕ :=
  match traj with
  | [] => none
  | r :: rest =>
    if covGeB r.fs_cov_after threshold then some r.t
    else first_crossing_month rest threshold

/-!
Trajectory simulator of `dashboard/phase2_dashboard.py` (`run_path_until`,
lines 29–119): revenue follows the exogenous fixed-growth schedule
`A0 * m0 * (1 + rev_growth)^(t-1)`, and population and margin stay frozen at
their initial values (`A = A`, `m = m` in the source).
-/

/-- The mutable loop variables of the dashboard's `run_path_until`. -/
structure DashState where
  A : ℚ
  m : ℚ
  employees : ℤ
  BC : ℚ
  FS : ℚ
  hires : ℕ
  last_hire_month : ℤ
deriving DecidableEq

/-- Initial loop variables of the dashboard's `run_path_until`. -/
def dashInit (params : PZParams) (A0 m0 BC0 FS0 : ℚ) : DashState :=
  { A := A0, m := m0, employees := params.employees0, BC := BC0, FS := FS0,
    hires := 0, last_hire_month := -10000 }

/-- Exogenous revenue of the dashboard in month `t`:
`rev0 * (1 + rev_growth)^(t-1)` with `rev0 = A0 * m0`. -/
def dashRevenue (params : PZParams) (A0 m0 : ℚ) (t : ℕ) : ℚ :=
  (A0 * m0) * (1 + params.rev_growth) ^ (t - 1)

/-- One iteration of the month loop of the dashboard's `run_path_until`. -/
def dashStep (params : PZParams) (A0 m0 : ℚ) (t : ℕ) (s : DashState) : DashState :=
  let costs := (s.employees : ℚ) * params.cost_per_employee + params.other_fixed_costs
  let U := dashRevenue params A0 m0 t + r_monthly params.r_annual * (s.BC + s.FS) - costs
  let fs_cov := covOf s.FS costs
  let p_eff := clamp
    (if 0 ≤ params.p_override ∧ params.p_override ≤ 1 then params.p_override
     else if params.use_dynamic_p then p_dynamic_from_fs fs_cov params.p4_max
     else 30/100)
    0 1
  if 0 < U then
    let BPZ_in := (1 - p_eff) * U
    let FS' := s.FS + params.fs_pct_of_bpz * BPZ_in
    let fs_target := (fs_ratio_for_employees s.employees : ℚ) * costs
    let hire := params.hire_cooldown_months ≤ (t : ℤ) - s.last_hire_month ∧
      params.hire_trigger_buffer * fs_target ≤ FS'
    { A := s.A
      m := s.m
      employees := if hire then s.employees + 1 else s.employees
      BC := s.BC + p_eff * U
      FS := FS'
      hires := if hire then s.hires + 1 else s.hires
      last_hire_month := if hire then (t : ℤ) else s.last_hire_month }
  else
    s

/-- Dashboard loop variables after the first `t` months. -/
def dashRun (params : PZParams) (A0 m0 BC0 FS0 : ℚ) : ℕ → DashState
  | 0 => dashInit params A0 m0 BC0 FS0
  | t + 1 => dashStep params A0 m0 (t + 1) (dashRun params A0 m0 BC0 FS0 t)

/-! ### Basic facts about `clamp` and the policy engine -/

theorem clamp_eq_self {x lo hi : ℚ} (h1 : lo ≤ x) (h2 : x ≤ hi) : clamp x lo hi = x := by
  unfold clamp
  rw [min_eq_right h2, max_eq_right h1]

theorem clamp_nonneg (x : ℚ) : 0 ≤ clamp x 0 1 := le_max_left 0 _

theorem clamp_le_one (x : ℚ) : clamp x 0 1 ≤ 1 :=
  max_le (by norm_num) (min_le_left 1 x)

theorem p_eff_choice_nonneg (params : PZParams) (p_to_bc : ℚ) (cov : Cov) :
    0 ≤ p_eff_choice params p_to_bc cov := clamp_nonneg _

theorem p_eff_choice_le_one (params : PZParams) (p_to_bc : ℚ) (cov : Cov) :
    p_eff_choice params p_to_bc cov ≤ 1 := clamp_le_one _

/-- C3 counterexample.  The claim asserts that at each boundary `b ∈ {3,6,12}`
the lower phase's bounds at `lambda = 1` reproduce `p_dynamic_from_fs b`.  In
fact the jumps are `0.15 ≠ 0.20` at 3, `0.35 ≠ 0.30` at 6 and `0.50 ≠ 0.40`
at 12 (with the default `p4_max = 0.70`). -/
theorem C3_counterexample :
    (p_bounds_by_fs (.fin 2) (70/100)).pmin
        + 1 * ((p_bounds_by_fs (.fin 2) (70/100)).pmax - (p_bounds_by_fs (.fin 2) (70/100)).pmin)
      ≠ p_dynamic_from_fs (.fin 3) (70/100) ∧
    (p_bounds_by_fs (.fin 4) (70/100)).pmin
        + 1 * ((p_bounds_by_fs (.fin 4) (70/100)).pmax - (p_bounds_by_fs (.fin 4) (70/100)).pmin)
      ≠ p_dynamic_from_fs (.fin 6) (70/100) ∧
    (p_bounds_by_fs (.fin 8) (70/100)).pmin
        + 1 * ((p_bounds_by_fs (.fin 8) (70/100)).pmax - (p_bounds_by_fs (.fin 8) (70/100)).pmin)
      ≠ p_dynamic_from_fs (.fin 12) (70/100) := by
  norm_num [p_bounds_by_fs, p_dynamic_from_fs, clamp]

/-- C3 (amended): `p_dynamic_from_fs` follows the within-phase interpolation
formula on each phase interval, but is discontinuous at every phase boundary:
its values approach 0.15, 0.35 and 0.50 as coverage approaches 3, 6 and 12
from below, while at the boundaries themselves it evaluates (with the next
phase's bounds at `lambda = 0`) to 0.20, 0.30 and 0.40. -/
theorem C3_phase_boundaries (p4 : ℚ) :
    (∀ c : ℚ, 0 ≤ c → c < 3 →
      p_dynamic_from_fs (.fin c) p4 = 5/100 + (c / 3) * (15/100 - 5/100)) ∧
    p_dynamic_from_fs (.fin 3) p4 = 20/100 ∧
    (∀ c : ℚ, 3 ≤ c → c < 6 →
      p_dynamic_from_fs (.fin c) p4 = 20/100 + ((c - 3) / 3) * (35/100 - 20/100)) ∧
    p_dynamic_from_fs (.fin 6) p4 = 30/100 ∧
    (∀ c : ℚ, 6 ≤ c → c < 12 →
      p_dynamic_from_fs (.fin c) p4 = 30/100 + ((c - 6) / 6) * (50/100 - 30/100)) ∧
    p_dynamic_from_fs (.fin 12) p4 = 40/100 ∧
    (15/100 : ℚ) ≠ p_dynamic_from_fs (.fin 3) p4 ∧
    (35/100 : ℚ) ≠ p_dynamic_from_fs (.fin 6) p4 ∧
    (50/100 : ℚ) ≠ p_dynamic_from_fs (.fin 12) p4 := by
  have h3 : p_dynamic_from_fs (.fin 3) p4 = 20/100 := by
    norm_num [p_dynamic_from_fs, p_bounds_by_fs, clamp]
  have h6 : p_dynamic_from_fs (.fin 6) p4 = 30/100 := by
    norm_num [p_dynamic_from_fs, p_bounds_by_fs, clamp]
  have h12 : p_dynamic_from_fs (.fin 12) p4 = 40/100 := by
    norm_num [p_dynamic_from_fs, p_bounds_by_fs, clamp]
  refine ⟨?_, h3, ?_, h6, ?_, h12, by rw [h3]; norm_num, by rw [h6]; norm_num,
    by rw [h12]; norm_num⟩
  · intro c hc0 hc3
    have hlam : clamp (c / 3) 0 1 = c / 3 :=
      clamp_eq_self (by positivity) (by linarith)
    simp only [p_dynamic_from_fs, p_bounds_by_fs, if_pos hc3]
    rw [hlam]
  · intro c hc3 hc6
    have hlam : clamp ((c - 3) / 3) 0 1 = (c - 3) / 3 :=
      clamp_eq_self (by linarith [div_nonneg (by linarith : (0:ℚ) ≤ c - 3) (by norm_num : (0:ℚ) ≤ 3)])
        (by rw [div_le_one (by norm_num : (0:ℚ) < 3)]; linarith)
    simp only [p_dynamic_from_fs, p_bounds_by_fs, if_neg (by linarith : ¬ c < 3), if_pos hc6]
    rw [hlam]
  · intro c hc6 hc12
    have hlam : clamp ((c - 6) / 6) 0 1 = (c - 6) / 6 :=
      clamp_eq_self (by linarith [div_nonneg (by linarith : (0:ℚ) ≤ c - 6) (by norm_num : (0:ℚ) ≤ 6)])
        (by rw [div_le_one (by norm_num : (0:ℚ) < 6)]; linarith)
    simp only [p_dynamic_from_fs, p_bounds_by_fs, if_neg (by linarith : ¬ c < 3),
      if_neg (by linarith : ¬ c < 6), if_pos hc12]
    rw [hlam]

/-- C3 witness: the amended theorem applied at concrete coverages. -/
theorem C3_phase_boundaries_witness :
    p_dynamic_from_fs (.fin 2) (70/100) = 5/100 + (2 / 3) * (15/100 - 5/100) ∧
    p_dynamic_from_fs (.fin 4) (70/100) = 20/100 + ((4 - 3) / 3) * (35/100 - 20/100) ∧
    p_dynamic_from_fs (.fin 8) (70/100) = 30/100 + ((8 - 6) / 6) * (50/100 - 30/100) ∧
    (15/100 : ℚ) ≠ p_dynamic_from_fs (.fin 3) (70/100) :=
  ⟨(C3_phase_boundaries (70/100)).1 2 (by norm_num) (by norm_num),
   (C3_phase_boundaries (70/100)).2.2.1 4 (by norm_num) (by norm_num),
   (C3_phase_boundaries (70/100)).2.2.2.2.1 8 (by norm_num) (by norm_num),
   (C3_phase_boundaries (70/100)).2.2.2.2.2.2.1⟩

/-- C4: precedence of the effective investment share — manual override when
`p_override ∈ [0,1]`, else the dynamic policy value when `use_dynamic_p`,
else the caller-supplied fixed fraction — with the result clamped to `[0,1]`
whichever source is used, and `simulate_pz` records exactly this value in a
positive-utility month. -/
theorem C4_p_eff_precedence (params : PZParams) (p_to_bc : ℚ) (cov : Cov)
    (t : ℕ) (s : PZState) :
    (0 ≤ params.p_override → params.p_override ≤ 1 →
      p_eff_choice params p_to_bc cov = params.p_override) ∧
    (¬ (0 ≤ params.p_override ∧ params.p_override ≤ 1) → params.use_dynamic_p = true →
      p_eff_choice params p_to_bc cov = clamp (p_dynamic_from_fs cov params.p4_max) 0 1) ∧
    (¬ (0 ≤ params.p_override ∧ params.p_override ≤ 1) → params.use_dynamic_p = false →
      p_eff_choice params p_to_bc cov = clamp p_to_bc 0 1) ∧
    0 ≤ p_eff_choice params p_to_bc cov ∧
    p_eff_choice params p_to_bc cov ≤ 1 ∧
    (0 < monthU params s →
      (stepPZ params p_to_bc t s).last_p_eff = some (monthPEff params p_to_bc s)) := by
  refine ⟨?_, ?_, ?_, p_eff_choice_nonneg _ _ _, p_eff_choice_le_one _ _ _, ?_⟩
  · intro h0 h1
    rw [p_eff_choice, if_pos ⟨h0, h1⟩, clamp_eq_self h0 h1]
  · intro hno hdyn
    rw [p_eff_choice, if_neg hno, hdyn, if_pos rfl]
  · intro hno hdyn
    rw [p_eff_choice, if_neg hno, hdyn]
    norm_num
  · intro hU
    rw [stepPZ]
    simp only [if_pos hU]

/-- C4 witness: the three precedence branches evaluated at concrete
configurations (override `0.65`; the defaults with their `-1` sentinel and
dynamic policy; dynamic policy disabled). -/
theorem C4_p_eff_precedence_witness :
    p_eff_choice { defaultParams with p_override := 65/100 } (30/100) (.fin 0) = 65/100 ∧
    p_eff_choice defaultParams (30/100) (.fin 0)
      = clamp (p_dynamic_from_fs (.fin 0) defaultParams.p4_max) 0 1 ∧
    p_eff_choice { defaultParams with use_dynamic_p := false } (30/100) (.fin 0)
      = clamp (30/100) 0 1 ∧
    (stepPZ defaultParams (30/100) 1 (initState defaultParams 0 0)).last_p_eff
      = some (monthPEff defaultParams (30/100) (initState defaultParams 0 0)) :=
  ⟨(C4_p_eff_precedence { defaultParams with p_override := 65/100 } (30/100) (.fin 0) 1
      (initState defaultParams 0 0)).1 (by norm_num [defaultParams]) (by norm_num [defaultParams]),
   (C4_p_eff_precedence defaultParams (30/100) (.fin 0) 1
      (initState defaultParams 0 0)).2.1 (by norm_num [defaultParams]) rfl,
   (C4_p_eff_precedence { defaultParams with use_dynamic_p := false } (30/100) (.fin 0) 1
      (initState defaultParams 0 0)).2.2.1 (by norm_num [defaultParams]) rfl,
   (C4_p_eff_precedence defaultParams (30/100) (.fin 0) 1
      (initState defaultParams 0 0)).2.2.2.2.2 (by
        norm_num [monthU, monthRevenue, monthInterest, monthCosts, initState, defaultParams,
          r_monthly])⟩

/-- C6 counterexample.  The claim says an out-of-range override is treated as
"no override" only when it is exactly the sentinel `-1.0`.  In fact the code
tests `0 <= p_override <= 1`, so the out-of-range value `2` (which is not the
sentinel) is also treated as no override: with the dynamic policy disabled the
effective share is the fixed `0.30`, not `clamp 2 0 1 = 1`. -/
theorem C6_counterexample :
    p_eff_choice { defaultParams with p_override := 2, use_dynamic_p := false }
        (30/100) (.fin 0) = 30/100 ∧
    (2 : ℚ) ≠ -1 ∧
    (30/100 : ℚ) ≠ clamp 2 0 1 := by
  norm_num [p_eff_choice, defaultParams, clamp]

/-- C6 (amended): every override value outside `[0,1]` — not only the `-1.0`
sentinel — is treated as "no override" (the dynamic/fixed fallback is used),
while any override value inside `[0,1]`, including exactly 0 and exactly 1, is
used verbatim (the defensive clamp leaves it unchanged). -/
theorem C6_override_semantics (params : PZParams) (p_to_bc : ℚ) (cov : Cov) :
    ((params.p_override < 0 ∨ 1 < params.p_override) →
      p_eff_choice params p_to_bc cov
        = clamp (if params.use_dynamic_p then p_dynamic_from_fs cov params.p4_max else p_to_bc)
            0 1) ∧
    (∀ v : ℚ, 0 ≤ v → v ≤ 1 →
      p_eff_choice { params with p_override := v } p_to_bc cov = v) := by
  constructor
  · intro hout
    have hno : ¬ (0 ≤ params.p_override ∧ params.p_override ≤ 1) := by
      rcases hout with h | h
      · exact fun hc => absurd hc.1 (not_le.mpr h)
      · exact fun hc => absurd hc.2 (not_le.mpr h)
    rw [p_eff_choice, if_neg hno]
  · intro v h0 h1
    rw [p_eff_choice]
    simp only [if_pos (And.intro h0 h1)]
    exact clamp_eq_self h0 h1

/-- C6 witness: out-of-range overrides `2` and `-0.5` both fall back to the
fixed fraction, and the boundary overrides `0` and `1` are used verbatim. -/
theorem C6_override_semantics_witness :
    p_eff_choice { defaultParams with p_override := 2, use_dynamic_p := false }
        (30/100) (.fin 0)
      = clamp (30/100) 0 1 ∧
    p_eff_choice { defaultParams with p_override := -(1/2), use_dynamic_p := false }
        (30/100) (.fin 0)
      = clamp (30/100) 0 1 ∧
    p_eff_choice { defaultParams with p_override := 0 } (30/100) (.fin 0) = 0 ∧
    p_eff_choice { defaultParams with p_override := 1 } (30/100) (.fin 0) = 1 := by
  refine ⟨?_, ?_, ?_, ?_⟩
  · have h := (C6_override_semantics
      { defaultParams with p_override := 2, use_dynamic_p := false } (30/100) (.fin 0)).1
      (by norm_num [defaultParams])
    simpa using h
  · have h := (C6_override_semantics
      { defaultParams with p_override := -(1/2), use_dynamic_p := false } (30/100) (.fin 0)).1
      (by norm_num [defaultParams])
    simpa using h
  · exact (C6_override_semantics defaultParams (30/100) (.fin 0)).2 0 (by norm_num) (by norm_num)
  · exact (C6_override_semantics defaultParams (30/100) (.fin 0)).2 1 (by norm_num) (by norm_num)

/-- C5: in a month with non-positive net utility `simulate_pz` freezes the
state — `BC`, `FS`, population, margin, employee count, cumulative impact and
the last-hire marker are unchanged — and only `U` itself is accumulated into
the utility sum. -/
theorem C5_conservative_freeze (params : PZParams) (p_to_bc : ℚ) (t : ℕ) (s : PZState)
    (h : monthU params s ≤ 0) :
    (stepPZ params p_to_bc t s).BC = s.BC ∧
    (stepPZ params p_to_bc t s).FS = s.FS ∧
    (stepPZ params p_to_bc t s).A = s.A ∧
    (stepPZ params p_to_bc t s).m = s.m ∧
    (stepPZ params p_to_bc t s).employees = s.employees ∧
    (stepPZ params p_to_bc t s).impact_cum = s.impact_cum ∧
    (stepPZ params p_to_bc t s).last_hire_month = s.last_hire_month ∧
    (stepPZ params p_to_bc t s).hires = s.hires ∧
    (stepPZ params p_to_bc t s).u_sum = s.u_sum + monthU params s := by
  rw [stepPZ]
  simp [if_neg (not_lt.mpr h)]

/-- C5 witness: with zero margin the first month runs at `U = -2000 ≤ 0` and
every frozen field is preserved. -/
theorem C5_conservative_freeze_witness :
    monthU { defaultParams with m0 := 0 }
        (initState { defaultParams with m0 := 0 } 0 0) ≤ 0 ∧
    (stepPZ { defaultParams with m0 := 0 } (30/100) 1
        (initState { defaultParams with m0 := 0 } 0 0)).FS
      = (initState { defaultParams with m0 := 0 } 0 0).FS := by
  have h : monthU { defaultParams with m0 := 0 }
      (initState { defaultParams with m0 := 0 } 0 0) ≤ 0 := by
    norm_num [monthU, monthRevenue, monthInterest, monthCosts, initState, defaultParams,
      r_monthly]
  exact ⟨h, (C5_conservative_freeze { defaultParams with m0 := 0 } (30/100) 1
    (initState { defaultParams with m0 := 0 } 0 0) h).2.1⟩

/-! ### Step invariants of the monthly loop -/

theorem stepPZ_BC_mono (params : PZParams) (p_to_bc : ℚ) (t : ℕ) (s : PZState) :
    s.BC ≤ (stepPZ params p_to_bc t s).BC := by
  rw [stepPZ]
  by_cases hU : 0 < monthU params s
  · simp only [if_pos hU]
    have hp : 0 ≤ monthPEff params p_to_bc s * monthU params s :=
      mul_nonneg (p_eff_choice_nonneg _ _ _) hU.le
    simpa using by linarith
  · simp [if_neg hU]

theorem stepPZ_FS_mono (params : PZParams) (p_to_bc : ℚ) (t : ℕ) (s : PZState)
    (hfs : 0 ≤ params.fs_pct_of_bpz) :
    s.FS ≤ (stepPZ params p_to_bc t s).FS := by
  rw [stepPZ]
  by_cases hU : 0 < monthU params s
  · simp only [if_pos hU]
    have hin : 0 ≤ monthFSIn params p_to_bc s := by
      refine mul_nonneg hfs (mul_nonneg ?_ hU.le)
      have := p_eff_choice_le_one params p_to_bc (monthCov params s)
      rw [monthPEff] at *
      linarith
    show s.FS ≤ monthPostFS params p_to_bc s
    rw [monthPostFS]
    linarith
  · simp [if_neg hU]

theorem stepPZ_A_nonneg (params : PZParams) (p_to_bc : ℚ) (t : ℕ) (s : PZState)
    (hA : 0 ≤ s.A) :
    0 ≤ (stepPZ params p_to_bc t s).A := by
  rw [stepPZ]
  by_cases hU : 0 < monthU params s
  · simp only [if_pos hU]
    exact le_max_left 0 _
  · simpa [if_neg hU] using hA

theorem runPZ_BC_mono (params : PZParams) (p_to_bc B0 FS0 : ℚ) :
    ∀ n : ℕ, B0 ≤ (runPZ params p_to_bc B0 FS0 n).BC := by
  intro n
  induction n with
  | zero => exact le_refl _
  | succ k ih => exact le_trans ih (stepPZ_BC_mono params p_to_bc (k + 1) _)

theorem runPZ_FS_mono (params : PZParams) (p_to_bc B0 FS0 : ℚ)
    (hfs : 0 ≤ params.fs_pct_of_bpz) :
    ∀ n : ℕ, FS0 ≤ (runPZ params p_to_bc B0 FS0 n).FS := by
  intro n
  induction n with
  | zero => exact le_refl _
  | succ k ih => exact le_trans ih (stepPZ_FS_mono params p_to_bc (k + 1) _ hfs)

theorem runPZ_A_nonneg (params : PZParams) (p_to_bc B0 FS0 : ℚ) (hA0 : 0 ≤ params.A0) :
    ∀ n : ℕ, 0 ≤ (runPZ params p_to_bc B0 FS0 n).A := by
  intro n
  induction n with
  | zero => exact hA0
  | succ k ih => exact stepPZ_A_nonneg params p_to_bc (k + 1) _ ih

/-- C1: for configurations whose ratio fields lie in `[0,1]` and whose
monetary inputs are non-negative, the investment-pool balance `BC` and the
survival-buffer balance `FS` never decrease from one month to the next (so
the terminal balances dominate the initial ones), and the population is never
negative at any step, for any horizon. -/
theorem C1_balances_monotone_population_nonneg (params : PZParams) (p_to_bc B0 FS0 : ℚ)
    (hfs0 : 0 ≤ params.fs_pct_of_bpz) (hfs1 : params.fs_pct_of_bpz ≤ 1)
    (himp0 : 0 ≤ params.impact_pct_of_bpz_rem) (himp1 : params.impact_pct_of_bpz_rem ≤ 1)
    (hint0 : 0 ≤ params.internal_pct_of_bpz_rem) (hint1 : params.internal_pct_of_bpz_rem ≤ 1)
    (hrd0 : 0 ≤ params.rd_pct_of_internal) (hrd1 : params.rd_pct_of_internal ≤ 1)
    (hA0 : 0 ≤ params.A0) (hm0 : 0 ≤ params.m0)
    (hcpe : 0 ≤ params.cost_per_employee) (hofc : 0 ≤ params.other_fixed_costs)
    (hB0 : 0 ≤ B0) (hFS0 : 0 ≤ FS0) :
    ∀ months : ℕ,
      ((runPZ params p_to_bc B0 FS0 months).BC
          ≤ (runPZ params p_to_bc B0 FS0 (months + 1)).BC ∧
        (runPZ params p_to_bc B0 FS0 months).FS
          ≤ (runPZ params p_to_bc B0 FS0 (months + 1)).FS ∧
        0 ≤ (runPZ params p_to_bc B0 FS0 months).A) ∧
      B0 ≤ (simulate_pz months p_to_bc params B0 FS0).BC_end ∧
      FS0 ≤ (simulate_pz months p_to_bc params B0 FS0).FS_end := by
  intro months
  refine ⟨⟨?_, ?_, runPZ_A_nonneg params p_to_bc B0 FS0 hA0 months⟩, ?_, ?_⟩
  · exact stepPZ_BC_mono params p_to_bc (months + 1) _
  · exact stepPZ_FS_mono params p_to_bc (months + 1) _ hfs0
  · show B0 ≤ (runPZ params p_to_bc B0 FS0 months).BC
    exact runPZ_BC_mono params p_to_bc B0 FS0 months
  · show FS0 ≤ (runPZ params p_to_bc B0 FS0 months).FS
    exact runPZ_FS_mono params p_to_bc B0 FS0 hfs0 months

/-- C1 witness: the invariants instantiated on the default configuration,
zero initial balances and a one-month horizon. -/
theorem C1_balances_monotone_population_nonneg_witness :
    ((runPZ defaultParams (30/100) 0 0 1).BC ≤ (runPZ defaultParams (30/100) 0 0 2).BC ∧
      (runPZ defaultParams (30/100) 0 0 1).FS ≤ (runPZ defaultParams (30/100) 0 0 2).FS ∧
      0 ≤ (runPZ defaultParams (30/100) 0 0 1).A) ∧
    (0 : ℚ) ≤ (simulate_pz 1 (30/100) defaultParams 0 0).BC_end ∧
    (0 : ℚ) ≤ (simulate_pz 1 (30/100) defaultParams 0 0).FS_end :=
  C1_balances_monotone_population_nonneg defaultParams (30/100) 0 0
    (by norm_num [defaultParams]) (by norm_num [defaultParams])
    (by norm_num [defaultParams]) (by norm_num [defaultParams])
    (by norm_num [defaultParams]) (by norm_num [defaultParams])
    (by norm_num [defaultParams]) (by norm_num [defaultParams])
    (by norm_num [defaultParams]) (by norm_num [defaultParams])
    (by norm_num [defaultParams]) (by norm_num [defaultParams])
    (by norm_num) (by norm_num) 1

/-! ### Hiring: cooldown and first-hire behaviour -/

/-- "A hire occurs in month `t`": the employee count strictly increases during
the `t`-th iteration of the loop. -/
def hireAt (params : PZParams) (p_to_bc B0 FS0 : ℚ) (t : ℕ) : Prop :=
  (runPZ params p_to_bc B0 FS0 (t - 1)).employees
    < (runPZ params p_to_bc B0 FS0 t).employees

theorem stepPZ_hire_char (params : PZParams) (p_to_bc : ℚ) (t : ℕ) (s : PZState)
    (h : s.employees < (stepPZ params p_to_bc t s).employees) :
    (stepPZ params p_to_bc t s).last_hire_month = (t : ℤ) ∧
    params.hire_cooldown_months ≤ (t : ℤ) - s.last_hire_month := by
  by_cases hU : 0 < monthU params s
  · rw [stepPZ] at h ⊢
    simp only [if_pos hU] at h ⊢
    by_cases hh : hireCond params p_to_bc t s
    · simp only [if_pos hh]
      exact ⟨by trivial, hh.1⟩
    · simp only [if_neg hh] at h
      exact absurd h (lt_irrefl _)
  · rw [stepPZ] at h
    simp only [if_neg hU] at h
    exact absurd h (lt_irrefl _)

theorem stepPZ_no_hire_frame (params : PZParams) (p_to_bc : ℚ) (t : ℕ) (s : PZState)
    (h : ¬ s.employees < (stepPZ params p_to_bc t s).employees) :
    (stepPZ params p_to_bc t s).employees = s.employees ∧
    (stepPZ params p_to_bc t s).last_hire_month = s.last_hire_month := by
  by_cases hU : 0 < monthU params s
  · rw [stepPZ] at h ⊢
    simp only [if_pos hU] at h ⊢
    by_cases hh : hireCond params p_to_bc t s
    · simp only [if_pos hh] at h
      omega
    · simp only [if_neg hh]
      exact ⟨by trivial, by trivial⟩
  · rw [stepPZ] at h ⊢
    simp only [if_neg hU]
    exact ⟨by trivial, by trivial⟩

theorem stepPZ_lhm_le (params : PZParams) (p_to_bc : ℚ) (t : ℕ) (s : PZState)
    (h : s.last_hire_month ≤ (t : ℤ)) :
    (stepPZ params p_to_bc t s).last_hire_month ≤ (t : ℤ) := by
  by_cases hh : s.employees < (stepPZ params p_to_bc t s).employees
  · exact le_of_eq (stepPZ_hire_char params p_to_bc t s hh).1
  · rw [(stepPZ_no_hire_frame params p_to_bc t s hh).2]
    exact h

theorem runPZ_lhm_le (params : PZParams) (p_to_bc B0 FS0 : ℚ) :
    ∀ n : ℕ, (runPZ params p_to_bc B0 FS0 n).last_hire_month ≤ (n : ℤ) := by
  intro n
  induction n with
  | zero => show (-10000 : ℤ) ≤ 0; norm_num
  | succ k ih =>
    exact stepPZ_lhm_le params p_to_bc (k + 1) _ (by push_cast; omega)

theorem stepPZ_lhm_mono (params : PZParams) (p_to_bc : ℚ) (t : ℕ) (s : PZState)
    (h : s.last_hire_month ≤ (t : ℤ)) :
    s.last_hire_month ≤ (stepPZ params p_to_bc t s).last_hire_month := by
  by_cases hh : s.employees < (stepPZ params p_to_bc t s).employees
  · rw [(stepPZ_hire_char params p_to_bc t s hh).1]
    exact h
  · rw [(stepPZ_no_hire_frame params p_to_bc t s hh).2]

theorem runPZ_lhm_mono (params : PZParams) (p_to_bc B0 FS0 : ℚ) {a b : ℕ} (hab : a ≤ b) :
    (runPZ params p_to_bc B0 FS0 a).last_hire_month
      ≤ (runPZ params p_to_bc B0 FS0 b).last_hire_month := by
  induction b with
  | zero =>
    have : a = 0 := Nat.le_zero.mp hab
    subst this; exact le_refl _
  | succ k ih =>
    rcases Nat.lt_or_ge a (k + 1) with hlt | hge
    · refine le_trans (ih (Nat.lt_succ_iff.mp hlt)) ?_
      exact stepPZ_lhm_mono params p_to_bc (k + 1) _
        (le_trans (runPZ_lhm_le params p_to_bc B0 FS0 k) (by push_cast; omega))
    · have : a = k + 1 := le_antisymm hab hge
      subst this; exact le_refl _

theorem runPZ_lhm_of_hire (params : PZParams) (p_to_bc B0 FS0 : ℚ) (t : ℕ)
    (ht : 1 ≤ t) (h : hireAt params p_to_bc B0 FS0 t) :
    (runPZ params p_to_bc B0 FS0 t).last_hire_month = (t : ℤ) := by
  obtain ⟨k, rfl⟩ : ∃ k, t = k + 1 := ⟨t - 1, by omega⟩
  have h' : (runPZ params p_to_bc B0 FS0 k).employees
      < (runPZ params p_to_bc B0 FS0 (k + 1)).employees := h
  exact (stepPZ_hire_char params p_to_bc (k + 1) _ h').1

/-- C8: hires are separated by at least the cooldown — if hires occur in
months `t1 < t2` then `t2 - t1 ≥ hire_cooldown_months`, no matter how far FS
exceeds the trigger buffer. -/
theorem C8_hire_cooldown (params : PZParams) (p_to_bc B0 FS0 : ℚ) (t1 t2 : ℕ)
    (h1 : 1 ≤ t1) (hlt : t1 < t2)
    (hh1 : hireAt params p_to_bc B0 FS0 t1)
    (hh2 : hireAt params p_to_bc B0 FS0 t2) :
    params.hire_cooldown_months ≤ (t2 : ℤ) - (t1 : ℤ) := by
  obtain ⟨k, rfl⟩ : ∃ k, t2 = k + 1 := ⟨t2 - 1, by omega⟩
  have h2' : (runPZ params p_to_bc B0 FS0 k).employees
      < (runPZ params p_to_bc B0 FS0 (k + 1)).employees := hh2
  have hcool := (stepPZ_hire_char params p_to_bc (k + 1) _ h2').2
  have hset := runPZ_lhm_of_hire params p_to_bc B0 FS0 t1 h1 hh1
  have hmono := runPZ_lhm_mono params p_to_bc B0 FS0 (show t1 ≤ k by omega)
  rw [hset] at hmono
  push_cast at hcool ⊢
  omega

theorem stepPZ_emp_le_succ (params : PZParams) (p_to_bc : ℚ) (t : ℕ) (s : PZState) :
    (stepPZ params p_to_bc t s).employees ≤ s.employees + 1 := by
  rw [stepPZ]
  by_cases hU : 0 < monthU params s
  · simp only [if_pos hU]
    by_cases hh : hireCond params p_to_bc t s
    · simp [if_pos hh]
    · simp only [if_neg hh]
      omega
  · simp only [if_neg hU]
    omega

theorem runPZ_lhm_init_of_no_hires (params : PZParams) (p_to_bc B0 FS0 : ℚ) :
    ∀ n : ℕ, (∀ s, 1 ≤ s → s ≤ n → ¬ hireAt params p_to_bc B0 FS0 s) →
      (runPZ params p_to_bc B0 FS0 n).last_hire_month = -10000 := by
  intro n
  induction n with
  | zero => intro _; rfl
  | succ k ih =>
    intro hno
    have hk := ih (fun s hs1 hsk => hno s hs1 (by omega))
    have hnk : ¬ hireAt params p_to_bc B0 FS0 (k + 1) := hno (k + 1) (by omega) (by omega)
    have hnk' : ¬ (runPZ params p_to_bc B0 FS0 k).employees
        < (runPZ params p_to_bc B0 FS0 (k + 1)).employees := hnk
    have := (stepPZ_no_hire_frame params p_to_bc (k + 1) _ hnk').2
    rw [show runPZ params p_to_bc B0 FS0 (k + 1)
        = stepPZ params p_to_bc (k + 1) (runPZ params p_to_bc B0 FS0 k) from rfl] at *
    rw [this, hk]

/-- C10: `simulate_pz` starts the last-hire marker at `-10000`, so the
cooldown can never block the first hire: in the first month with positive
utility whose post-allocation FS meets the hiring trigger, an employee is
hired (for any cooldown up to 10001 months); moreover in any single month the
employee count grows by at most one. -/
theorem C10_first_hire_and_single_increment (params : PZParams) (p_to_bc B0 FS0 : ℚ)
    (t : ℕ) (ht : 1 ≤ t)
    (hprev : ∀ s, 1 ≤ s → s < t → ¬ hireAt params p_to_bc B0 FS0 s)
    (hcool : params.hire_cooldown_months ≤ 10001)
    (hU : 0 < monthU params (runPZ params p_to_bc B0 FS0 (t - 1)))
    (hFS : params.hire_trigger_buffer
        * ((fs_ratio_for_employees (runPZ params p_to_bc B0 FS0 (t - 1)).employees : ℚ)
            * monthCosts params (runPZ params p_to_bc B0 FS0 (t - 1)))
      ≤ monthPostFS params p_to_bc (runPZ params p_to_bc B0 FS0 (t - 1))) :
    hireAt params p_to_bc B0 FS0 t ∧
    (initState params B0 FS0).last_hire_month = -10000 ∧
    (∀ (u : ℕ) (s' : PZState),
      (stepPZ params p_to_bc u s').employees ≤ s'.employees + 1) := by
  refine ⟨?_, rfl, fun u s' => stepPZ_emp_le_succ params p_to_bc u s'⟩
  obtain ⟨k, rfl⟩ : ∃ k, t = k + 1 := ⟨t - 1, by omega⟩
  rw [Nat.add_sub_cancel] at hU hFS
  have hlhm : (runPZ params p_to_bc B0 FS0 k).last_hire_month = -10000 :=
    runPZ_lhm_init_of_no_hires params p_to_bc B0 FS0 k
      (fun s hs1 hsk => hprev s hs1 (by omega))
  have hhc : hireCond params p_to_bc (k + 1) (runPZ params p_to_bc B0 FS0 k) := by
    constructor
    · rw [hlhm]; push_cast; omega
    · simpa using hFS
  show (runPZ params p_to_bc B0 FS0 k).employees
      < (stepPZ params p_to_bc (k + 1) (runPZ params p_to_bc B0 FS0 k)).employees
  rw [stepPZ]
  simp only [if_pos hU, if_pos hhc]
  omega

/-- A configuration (defaults with higher margin, no interest and no growth
feedback) on which a run from `FS0 = 10^6` hires in months 1 and 4. -/
def witnessParams : PZParams :=
  { defaultParams with
    m0 := 100
    r_annual := 0
    churn_rate := 0
    k_acq := 0
    km_margin := 0
    krd_margin := 0 }

/-- C8 witness: on `witnessParams` hires occur in months 1 and 4, and the
theorem yields `cooldown = 3 ≤ 4 - 1`. -/
theorem C8_hire_cooldown_witness :
    hireAt witnessParams (30/100) 0 1000000 1 ∧
    hireAt witnessParams (30/100) 0 1000000 4 ∧
    witnessParams.hire_cooldown_months ≤ (4 : ℤ) - (1 : ℤ) := by
  have h1 : hireAt witnessParams (30/100) 0 1000000 1 := by
    show _ < _
    norm_num [runPZ, stepPZ, initState, monthU, monthRevenue, monthInterest, monthCosts,
      monthPEff, monthCov, covOf, p_eff_choice, p_dynamic_from_fs, p_bounds_by_fs, clamp,
      monthPostFS, monthFSIn, hireCond, fs_ratio_for_employees, r_monthly, witnessParams,
      defaultParams]
  have h4 : hireAt witnessParams (30/100) 0 1000000 4 := by
    show _ < _
    norm_num [runPZ, stepPZ, initState, monthU, monthRevenue, monthInterest, monthCosts,
      monthPEff, monthCov, covOf, p_eff_choice, p_dynamic_from_fs, p_bounds_by_fs, clamp,
      monthPostFS, monthFSIn, hireCond, fs_ratio_for_employees, r_monthly, witnessParams,
      defaultParams]
  exact ⟨h1, h4,
    C8_hire_cooldown witnessParams (30/100) 0 1000000 1 4 (by norm_num) (by norm_num) h1 h4⟩

/-- C10 witness: on `witnessParams` month 1 has positive utility and an FS
above the trigger, no earlier month exists, and the cooldown (3) is below
10001, so the theorem yields the month-1 hire. -/
theorem C10_first_hire_and_single_increment_witness :
    hireAt witnessParams (30/100) 0 1000000 1 ∧
    (initState witnessParams 0 1000000).last_hire_month = -10000 ∧
    (∀ (u : ℕ) (s' : PZState),
      (stepPZ witnessParams (30/100) u s').employees ≤ s'.employees + 1) :=
  C10_first_hire_and_single_increment witnessParams (30/100) 0 1000000 1 (by norm_num)
    (fun s hs1 hs2 => by omega)
    (by norm_num [witnessParams, defaultParams])
    (by norm_num [runPZ, initState, monthU, monthRevenue, monthInterest, monthCosts,
      r_monthly, witnessParams, defaultParams])
    (by norm_num [runPZ, initState, monthU, monthRevenue, monthInterest, monthCosts,
      monthPEff, monthCov, covOf, p_eff_choice, p_dynamic_from_fs, p_bounds_by_fs, clamp,
      monthPostFS, monthFSIn, fs_ratio_for_employees, r_monthly, witnessParams,
      defaultParams])

/-! ### Revenue modes -/

theorem runPZ_rev_growth_irrelevant (params : PZParams) (g p_to_bc B0 FS0 : ℚ) :
    ∀ n : ℕ, runPZ { params with rev_growth := g } p_to_bc B0 FS0 n
      = runPZ params p_to_bc B0 FS0 n := by
  intro n
  induction n with
  | zero => rfl
  | succ k ih =>
    show stepPZ { params with rev_growth := g } p_to_bc (k + 1)
        (runPZ { params with rev_growth := g } p_to_bc B0 FS0 k)
      = stepPZ params p_to_bc (k + 1) (runPZ params p_to_bc B0 FS0 k)
    rw [ih]
    rfl

/-- C7 counterexample.  With `rev_growth = 1` the claim's exogenous mode would
make month-2 revenue `A0 * m0 * (1 + 1)^(2-1) = 5000`; `simulate_pz` instead
computes month-2 revenue organically from the updated state (`≈ 2503.8`), so
no configuration selects the exogenous mode in the core simulator. -/
theorem C7_counterexample :
    monthRevenue (runPZ { defaultParams with rev_growth := 1 } (30/100) 0 0 1)
      ≠ (100 * 25) * (1 + 1) ^ (2 - 1 : ℕ) ∧
    runPZ { defaultParams with rev_growth := 1 } (30/100) 0 0 2
      = runPZ defaultParams (30/100) 0 0 2 := by
  refine ⟨?_, runPZ_rev_growth_irrelevant defaultParams 1 (30/100) 0 0 2⟩
  norm_num [monthRevenue, runPZ, stepPZ, initState, monthU, monthInterest, monthCosts,
    monthPEff, monthCov, covOf, p_eff_choice, p_dynamic_from_fs, p_bounds_by_fs, clamp,
    monthPostFS, monthFSIn, hireCond, fs_ratio_for_employees, r_monthly, defaultParams]

/-- C7 (amended): the core simulator `simulate_pz` always computes revenue
organically as `A * m` and its behaviour is entirely independent of
`rev_growth` (the field is never read); the exogenous fixed-growth mode
`A0 * m0 * (1 + rev_growth)^(t-1)` is implemented only by the dashboard's
`run_path_until`. -/
theorem C7_revenue_modes (params : PZParams) (p_to_bc B0 FS0 g A0 m0 : ℚ) (n t : ℕ) :
    monthRevenue (runPZ params p_to_bc B0 FS0 n)
      = (runPZ params p_to_bc B0 FS0 n).A * (runPZ params p_to_bc B0 FS0 n).m ∧
    runPZ { params with rev_growth := g } p_to_bc B0 FS0 n
      = runPZ params p_to_bc B0 FS0 n ∧
    simulate_pz n p_to_bc { params with rev_growth := g } B0 FS0
      = simulate_pz n p_to_bc params B0 FS0 ∧
    dashRevenue params A0 m0 (t + 1) = (A0 * m0) * (1 + params.rev_growth) ^ t := by
  refine ⟨rfl, runPZ_rev_growth_irrelevant params g p_to_bc B0 FS0 n, ?_, rfl⟩
  simp only [simulate_pz, runPZ_rev_growth_irrelevant params g p_to_bc B0 FS0 n]

/-! ### Summary mode vs. trajectory mode -/

/-- Correspondence between the `simulate_pz` state and the grid
`run_path_until` loop variables. -/
def relPG (s : PZState) (g : GridState) : Prop :=
  s.A = g.A ∧ s.m = g.m ∧ s.employees = g.employees ∧ s.BC = g.BC ∧ s.FS = g.FS ∧
    s.last_hire_month = g.last_hire_month

theorem stepPZ_gridStep (params : PZParams) (t : ℕ) (s : PZState) (g : GridState)
    (h : relPG s g) : relPG (stepPZ params (30/100) t s) (gridStep params t g) := by
  obtain ⟨hA, hm, he, hBC, hFS, hl⟩ := h
  unfold relPG
  rw [stepPZ, gridStep]
  simp only [monthU, monthCosts, monthRevenue, monthInterest, monthPEff, monthCov,
    p_eff_choice, monthPostFS, monthFSIn, hireCond, ← hA, ← hm, ← he, ← hBC, ← hFS, ← hl]
  split_ifs <;>
    exact ⟨by trivial, by trivial, by trivial, by trivial, by trivial, by trivial⟩

theorem runPZ_gridRun (params : PZParams) :
    ∀ n : ℕ, relPG (runPZ params (30/100) 0 0 n) (gridRun params params.A0 params.m0 n) := by
  intro n
  induction n with
  | zero => exact ⟨rfl, rfl, rfl, rfl, rfl, rfl⟩
  | succ k ih => exact stepPZ_gridStep params (k + 1) _ _ ih

/-- C2 counterexample.  The dashboard's `run_path_until` and `simulate_pz`,
run with identical inputs (default configuration, `p_to_bc = 0.30`, zero
initial balances, one-month horizon), already disagree on the final
population: the dashboard freezes `A` at 100 while `simulate_pz` grows it to
`100 + 399/20010`. -/
theorem C2_counterexample :
    (simulate_pz 1 (30/100) defaultParams 0 0).A_end
      ≠ (dashRun defaultParams defaultParams.A0 defaultParams.m0 0 0 1).A := by
  norm_num [simulate_pz, runPZ, stepPZ, initState, monthU, monthRevenue, monthInterest,
    monthCosts, monthPEff, monthCov, covOf, p_eff_choice, p_dynamic_from_fs, p_bounds_by_fs,
    clamp, monthPostFS, monthFSIn, hireCond, fs_ratio_for_employees, r_monthly,
    dashRun, dashStep, dashInit, dashRevenue, defaultParams]

/-- C2 (amended): the agreement holds between `simulate_pz` and the
*viability-grid* `run_path_until` under the inputs the repository actually
pairs them with (`p_to_bc = 0.30`, zero initial balances, `A0`/`m0` from the
configuration): the two extraction modes agree on final `BC`, `FS`, employee
count, population and margin for every configuration and horizon.  The
dashboard's `run_path_until` is a different model (exogenous revenue, frozen
growth) and does not agree — see the counterexample. -/
theorem C2_grid_summary_agreement (params : PZParams) (months : ℕ) :
    (simulate_pz months (30/100) params 0 0).BC_end
        = (gridRun params params.A0 params.m0 months).BC ∧
    (simulate_pz months (30/100) params 0 0).FS_end
        = (gridRun params params.A0 params.m0 months).FS ∧
    (simulate_pz months (30/100) params 0 0).employees_end
        = (gridRun params params.A0 params.m0 months).employees ∧
    (simulate_pz months (30/100) params 0 0).A_end
        = (gridRun params params.A0 params.m0 months).A ∧
    (simulate_pz months (30/100) params 0 0).m_end
        = (gridRun params params.A0 params.m0 months).m := by
  obtain ⟨hA, hm, he, hBC, hFS, hl⟩ := runPZ_gridRun params months
  exact ⟨hBC, hFS, he, hA, hm⟩

/-! ### The threshold-crossing query -/

theorem fc_map_range_spec (f : ℕ → GridRow) (th : ℚ) (hf : ∀ k, (f k).t = k) :
    ∀ n a : ℕ,
      (∀ m : ℕ, (first_crossing_month ((List.range' a n).map f) th = some m ↔
        (a ≤ m ∧ m < a + n ∧ covGeB (f m).fs_cov_after th = true ∧
          ∀ k, a ≤ k → k < m → covGeB (f k).fs_cov_after th = false))) ∧
      (first_crossing_month ((List.range' a n).map f) th = none ↔
        ∀ k, a ≤ k → k < a + n → covGeB (f k).fs_cov_after th = false) := by
  intro n
  induction n with
  | zero =>
    intro a
    refine ⟨fun m => ?_, ?_⟩
    · simp only [List.range'_zero, List.map_nil, first_crossing_month]
      constructor
      · intro h; cases h
      · rintro ⟨h1, h2, -, -⟩; omega
    · simp only [List.range'_zero, List.map_nil, first_crossing_month]
      constructor
      · intro _ k hk1 hk2; omega
      · intro _; trivial
  | succ n ih =>
    intro a
    have hrec := ih (a + 1)
    rw [List.range'_succ]
    simp only [List.map_cons, first_crossing_month]
    by_cases hP : covGeB (f a).fs_cov_after th = true
    · refine ⟨fun m => ?_, ?_⟩
      · rw [if_pos hP, hf a]
        constructor
        · intro h
          have hma : m = a := by
            have := Option.some.inj h
            omega
          subst hma
          exact ⟨le_refl _, by omega, hP, fun k hk1 hk2 => by omega⟩
        · rintro ⟨h1, h2, hm, hall⟩
          rcases eq_or_lt_of_le h1 with heq | hlt
          · rw [heq]
          · have := hall a (le_refl a) hlt
            rw [this] at hP
            exact Bool.noConfusion hP
      · rw [if_pos hP]
        constructor
        · intro h; cases h
        · intro hall
          have := hall a (le_refl a) (by omega)
          rw [this] at hP
          exact Bool.noConfusion hP
    · have hPf : covGeB (f a).fs_cov_after th = false := by
        simpa using hP
      refine ⟨fun m => ?_, ?_⟩
      · rw [if_neg hP, (hrec.1 m)]
        constructor
        · rintro ⟨h1, h2, hm, hall⟩
          refine ⟨by omega, by omega, hm, fun k hk1 hk2 => ?_⟩
          rcases eq_or_lt_of_le hk1 with heq | hlt
          · rw [← heq]; exact hPf
          · exact hall k (by omega) hk2
        · rintro ⟨h1, h2, hm, hall⟩
          have hma : a + 1 ≤ m := by
            rcases Nat.lt_or_ge a m with hlt | hge
            · omega
            · have hmeq : m = a := by omega
              rw [hmeq] at hm
              rw [hm] at hPf
              exact Bool.noConfusion hPf
          exact ⟨hma, by omega, hm, fun k hk1 hk2 => hall k (by omega) hk2⟩
      · rw [if_neg hP, hrec.2]
        constructor
        · intro hall k hk1 hk2
          rcases eq_or_lt_of_le hk1 with heq | hlt
          · rw [← heq]; exact hPf
          · exact hall k (by omega) (by omega)
        · intro hall k hk1 hk2
          exact hall k (by omega) (by omega)

/-- The post-allocation coverage recorded in the month-`k` trajectory row. -/
def gridCovAfter (params : PZParams) (A0 m0 : ℚ) (k : ℕ) : Cov :=
  (gridRowAt params k (gridRun params A0 m0 (k - 1))).fs_cov_after

/-- C9: `first_crossing_month` returns exactly the smallest month `m` whose
recorded post-allocation coverage meets the threshold (no smaller month does),
and returns the "not reached" value (`None`/NaN, modelled `none`) precisely
when no month within the horizon meets the threshold. -/
theorem C9_first_crossing (params : PZParams) (A0 m0 : ℚ) (months : ℕ) (th : ℚ) :
    (∀ m : ℕ,
      first_crossing_month (gridTraj params A0 m0 months) th = some m ↔
        (1 ≤ m ∧ m ≤ months ∧ covGeB (gridCovAfter params A0 m0 m) th = true ∧
          ∀ k, 1 ≤ k → k < m → covGeB (gridCovAfter params A0 m0 k) th = false)) ∧
    (first_crossing_month (gridTraj params A0 m0 months) th = none ↔
      ∀ k, 1 ≤ k → k ≤ months → covGeB (gridCovAfter params A0 m0 k) th = false) := by
  have H := fc_map_range_spec (fun t => gridRowAt params t (gridRun params A0 m0 (t - 1))) th
    (fun k => rfl) months 1
  rw [gridTraj]
  constructor
  · intro m
    rw [H.1 m]
    constructor
    · rintro ⟨h1, h2, hm, hall⟩
      exact ⟨h1, by omega, hm, hall⟩
    · rintro ⟨h1, h2, hm, hall⟩
      exact ⟨h1, by omega, hm, hall⟩
  · rw [H.2]
    constructor
    · intro hall k hk1 hk2
      exact hall k hk1 (by omega)
    · intro hall k hk1 hk2
      exact hall k hk1 (by omega)
